import Mathlib

/-!
Verification of the FutureSelf backend (FastAPI + Celery + Supabase glue).

This file shallowly embeds the parts of the backend that the verified
properties talk about:

* the Celery configuration objects built in `tasks.py` and
  `celery_worker.py` (records of the settings each file assigns);
* `AstrologyService.get_zodiac_sign` from `astrology_service.py`,
  with Python list-indexing semantics (negative wrap-around, IndexError
  modelled as `none`) and `int(longitude // 30)` as the integer floor;
* the list-union merge of `extract_personal_details` in `main.py`;
* the Ollama retry loop of the `/chat` endpoint;
* the SSE generator of the `/chat/stream` endpoint;
* the database write traces of the two chat handlers and of
  `extract_personal_details`;
* the `/transcribe` handler including Python's `or` on optional strings
  and standard base64 encoding of the uploaded bytes;
* the argument wiring of the two call sites of
  `create_future_self_prompt`.

External effects (HTTP, Supabase, the model servers, `time.time()` and
`random`) are passed in as explicit parameters or input traces; machine
floats of the source are modelled as rationals.
-/

namespace FutureSelf

/-! ### Python string helpers used across the embedded functions

Implemented over the character list of the string so that every helper
evaluates inside the kernel. -/

/-- ASCII lowercasing of one character (the source only ever lowercases
ASCII text). -/
def lowerChar (c : Char) : Char :=
  if 65 ≤ c.toNat ∧ c.toNat ≤ 90 then Char.ofNat (c.toNat + 32) else c

/-- Python `str.lower()`. -/
def pyLower (s : String) : String := String.mk (s.toList.map lowerChar)

/-- A character Python `str.strip()` removes. -/
def isPySpace (c : Char) : Bool :=
  c = ' ' || c = '\t' || c = '\n' || c = '\r' || c = '\x0b' || c = '\x0c'

/-- Python `str.strip()`: leading and trailing whitespace removed. -/
def pyStrip (s : String) : String :=
  String.mk (((s.toList.dropWhile isPySpace).reverse.dropWhile isPySpace).reverse)

/-- Python `str.startswith`. -/
def strStartsWith (s pre : String) : Bool := pre.toList.isPrefixOf s.toList

/-- Python `str.endswith`. -/
def strEndsWith (s suf : String) : Bool := suf.toList.isSuffixOf s.toList

/-! ### Celery configuration (`tasks.py` lines 9-25, `celery_worker.py` lines 9-30)

Each file builds its own `Celery` application object and assigns
configuration keys on it.  A `CeleryConf` records, per key, the value the
file assigns (`none` = the file leaves the key untouched).  `redisUrl`
stands for `os.environ.get("REDIS_URL")`. -/

structure CeleryConf where
  broker_url : Option String := none
  result_backend : Option String := none
  task_serializer : Option String := none
  result_serializer : Option String := none
  accept_content : Option (List String) := none
  task_acks_late : Option Bool := none
  worker_prefetch_multiplier : Option Nat := none
  task_time_limit : Option Nat := none
  task_soft_time_limit : Option Nat := none
  timezone : Option String := none
  enable_utc : Option Bool := none
  task_track_started : Option Bool := none
  worker_max_tasks_per_child : Option Nat := none
  broker_connection_retry_on_startup : Option Bool := none
  deriving DecidableEq

/-- The default broker URL both files fall back to when `REDIS_URL` is unset. -/
def redisDefault : String := "redis://localhost:6379/0"

/-- The configuration `tasks.py` assigns onto `celery_app.conf`
(lines 13-25): json serialization, late acks, prefetch 1, a 600 second
hard time limit and a 300 second soft limit. -/
def tasksCeleryConf (redisUrl : Option String) : CeleryConf :=
  { broker_url := some (redisUrl.getD redisDefault),
    result_backend := some (redisUrl.getD redisDefault),
    task_serializer := some "json",
    result_serializer := some "json",
    accept_content := some ["json"],
    task_acks_late := some true,
    worker_prefetch_multiplier := some 1,
    task_time_limit := some 600,
    task_soft_time_limit := some 300 }

/-- The configuration `celery_worker.py` passes to `Celery(...)` and
`celery_app.conf.update(...)` (lines 12-30): json serialization, UTC,
task tracking, a `30 * 60` second hard time limit and 200 tasks per
worker child. -/
def workerCeleryConf (redisUrl : Option String) : CeleryConf :=
  { broker_url := some (redisUrl.getD redisDefault),
    result_backend := some (redisUrl.getD redisDefault),
    task_serializer := some "json",
    accept_content := some ["json"],
    result_serializer := some "json",
    timezone := some "UTC",
    enable_utc := some true,
    task_track_started := some true,
    task_time_limit := some (30 * 60),
    worker_max_tasks_per_child := some 200,
    broker_connection_retry_on_startup := some true }

/-! ### `AstrologyService.get_zodiac_sign` (`astrology_service.py` lines 13-16, 141-144) -/

/-- The 12 zodiac signs, in the order `AstrologyService.__init__` lists them. -/
def zodiac_signs : List String :=
  ["Aries", "Taurus", "Gemini", "Cancer", "Leo", "Virgo",
   "Libra", "Scorpio", "Sagittarius", "Capricorn", "Aquarius", "Pisces"]

/-- Python list subscription `l[i]`: indices `0 <= i < len` read directly,
`-len <= i < 0` wrap around from the end, anything else raises IndexError
(modelled as `none`). -/
def pyListGet {α : Type} (l : List α) (i : ℤ) : Option α :=
  if 0 ≤ i then l.get? i.toNat
  else if 0 ≤ i + l.length then l.get? (i + l.length).toNat
  else none

/-- `get_zodiac_sign` (lines 141-144): `self.zodiac_signs[int(longitude // 30)]`.
`longitude // 30` is Python floor division, so the index is `⌊longitude / 30⌋`. -/
def get_zodiac_sign (longitude : ℚ) : Option String :=
  pyListGet zodiac_signs ⌊longitude / 30⌋

/-! ### `extract_personal_details` merge (`main.py` lines 288-312)

When a `user_personal_details` row already exists, the handler merges the
regex-extracted `details` dict into it category by category.  Stored
category values are lists of strings (a legacy string-encoded value is
normalised back to a list by the `isinstance` branch at lines 294-300
before the merge; the embedding takes the post-normalisation lists).
Records and extracted details are association lists in insertion order,
mirroring Python dict semantics: assigning to an existing key keeps its
position, a fresh key is appended at the end. -/

/-- Lines 302-305: `for value in values: if value not in current_values:
current_values.append(value)`. -/
def addNewUnique (cur : List String) : List String → List String
  | [] => cur
  | v :: vs => addNewUnique (if v ∈ cur then cur else cur ++ [v]) vs

/-- Python dict assignment `d[c] = v` on an association list: overwrite in
place, or append the fresh key at the end. -/
def setDetail : List (String × List String) → String → List String →
    List (String × List String)
  | [], c, v => [(c, v)]
  | (k, w) :: rest, c, v =>
    if k = c then (c, v) :: rest else (k, w) :: setDetail rest c v

/-- Python dict lookup on the association list. -/
def lookupDetail (r : List (String × List String)) (c : String) :
    Option (List String) :=
  match r with
  | [] => none
  | (k, w) :: rest => if k = c then some w else lookupDetail rest c

/-- Lines 291-309, one iteration of `for category, values in details.items()`:
if the stored record has a truthy (non-empty) list for the category, append
the new values that are not already present; otherwise assign the new
values outright. -/
def mergeCategory (stored : List (String × List String)) (c : String)
    (vals : List String) : List (String × List String) :=
  match lookupDetail stored c with
  | some cur =>
    if cur = [] then setDetail stored c vals
    else setDetail stored c (addNewUnique cur vals)
  | none => setDetail stored c vals

/-- Lines 291-309: the whole merge of the extracted `details` into the
existing `user_personal_details` row. -/
def mergeDetails (stored newDetails : List (String × List String)) :
    List (String × List String) :=
  newDetails.foldl (fun acc cv => mergeCategory acc cv.1 cv.2) stored

/-! ### Ollama retry loop of the `/chat` endpoint (`main.py` lines 1199-1235) -/

/-- What one `requests.post` attempt against the Ollama API does: returns the
JSON `response` field, times out, fails to connect, or fails
`raise_for_status` (an HTTP error, which the inner handlers do not catch). -/
inductive OllamaOutcome
  | ok (response : String)
  | timeout
  | connError
  | httpError
  deriving DecidableEq

/-- `o` is an outcome the loop retries: `requests.exceptions.Timeout` or
`requests.exceptions.ConnectionError`. -/
def retryable (o : OllamaOutcome) : Prop :=
  o = OllamaOutcome.timeout ∨ o = OllamaOutcome.connError

instance (o : OllamaOutcome) : Decidable (retryable o) := by
  unfold retryable; infer_instance

/-- What the retry loop produced: how many POST attempts were made, the
`asyncio.sleep` delays performed between them, and either the stripped
response text or the HTTP error raised (status, detail). -/
structure RetryTrace where
  attempts : Nat
  sleeps : List Nat
  result : Except (Nat × String) String

/-- Detail of the 503 raised when the last attempt times out (line 1223). -/
def timeoutDetail : String :=
  "Ollama service is taking too long to respond. Please try again later or check if Ollama is running properly."

/-- Detail of the 503 raised when the last attempt cannot connect (line 1234). -/
def connDetail : String :=
  "Cannot connect to Ollama service. Please ensure Ollama is running on localhost:11434."

/-- Detail prefix of the 503 raised by the outer `except RequestException`
handler (line 1258), which is where an HTTP error from `raise_for_status`
lands. -/
def commDetail : String := "Error communicating with Ollama: HTTPError"

/-- The body of `for attempt in range(max_retries)` (lines 1204-1235).
`fuel` is the number of loop iterations left (`max_retries - attempt`);
`attempt < max_retries - 1` is `1 < fuel`.  On success the loop breaks with
`response.json().get("response", "").strip()`; on a retryable error it
sleeps `delay` seconds and doubles the delay, unless this was the last
attempt, in which case HTTP 503 is raised.  The `fuel = 0` case is
unreachable from `chatRetry` (the loop always breaks or raises). -/
def chatRetryGo (f : Nat → OllamaOutcome) :
    Nat → Nat → Nat → List Nat → RetryTrace
  | 0, attempt, _, sleeps =>
    ⟨attempt, sleeps, Except.error (500, "ai_response_text is unbound")⟩
  | fuel + 1, attempt, delay, sleeps =>
    match f attempt with
    | OllamaOutcome.ok response =>
      ⟨attempt + 1, sleeps, Except.ok (pyStrip response)⟩
    | OllamaOutcome.timeout =>
      if 1 ≤ fuel then
        chatRetryGo f fuel (attempt + 1) (delay * 2) (sleeps ++ [delay])
      else
        ⟨attempt + 1, sleeps, Except.error (503, timeoutDetail)⟩
    | OllamaOutcome.connError =>
      if 1 ≤ fuel then
        chatRetryGo f fuel (attempt + 1) (delay * 2) (sleeps ++ [delay])
      else
        ⟨attempt + 1, sleeps, Except.error (503, connDetail)⟩
    | OllamaOutcome.httpError =>
      ⟨attempt + 1, sleeps, Except.error (503, commDetail)⟩

/-- Lines 1201-1235: `max_retries = 3`, `retry_delay = 5`, then the loop.
`f attempt` is the outcome of the POST made on that attempt. -/
def chatRetry (f : Nat → OllamaOutcome) : RetryTrace :=
  chatRetryGo f 3 0 5 []

/-! ### The `/chat/stream` SSE generator (`main.py` lines 1802-1913)

`generate_stream` yields Server-Sent Events while reading Ollama's
streamed JSON lines.  An event is modelled structurally rather than as its
serialized `data: ...` frame. -/

/-- One SSE frame the generator yields. -/
inductive SseEvent
  | typing (isOn : Bool)
  | chunk (text : String)
  | chunkDone (text : String)
  | done
  | httpError (msg : String)
  deriving DecidableEq

/-- One parsed JSON line from Ollama's streaming response: its `response`
field if present, its `done` flag (`chunk_data.get("done", False)`), and the
value of `time.time()` when the loop processes it. -/
structure OllamaChunk where
  response : Option String
  done : Bool
  time : ℚ
  deriving DecidableEq

/-- The greeting list used by `generate_stream` (lines 1840, 1881) and by
`humanize_response` and `create_future_self_prompt`. -/
def simple_greetings : List String :=
  ["hi", "hello", "hey", "good morning", "good afternoon", "good evening",
   "howdy", "greetings"]

/-- `user_message.lower().strip()` equals a greeting, starts with one plus a
space, or ends with a space plus one (lines 1841-1842). -/
def isSimpleGreeting (user_message : String) : Bool :=
  let m := pyStrip (pyLower user_message)
  simple_greetings.any fun g =>
    m = g || strStartsWith m (g ++ " ") || strEndsWith m (" " ++ g)

/-- The `for line in response.iter_lines()` loop (lines 1824-1876), carrying
`complete_response`, `accumulated_text`, `last_chunk_time` and the events
yielded so far.  Returns the final `complete_response` and the yielded
events.  On the final chunk of a simple greeting whose humanized text
differs, the loop yields the humanized text as one frame and breaks;
otherwise a batch is flushed when at least 10 characters accumulated or at
least 0.5 seconds passed since the last flush. -/
def streamLoop (humanize : String → String) (user_message : String) :
    List OllamaChunk → String → String → ℚ → List SseEvent →
      String × List SseEvent
  | [], complete, _acc, _lastT, evs => (complete, evs)
  | ch :: rest, complete, acc, lastT, evs =>
    match ch.response with
    | none => streamLoop humanize user_message rest complete acc lastT evs
    | some t =>
      if ch.done = true ∧ isSimpleGreeting user_message = true ∧
          humanize (complete ++ t) ≠ complete ++ t then
        (humanize (complete ++ t),
          evs ++ [SseEvent.typing false,
            SseEvent.chunkDone (humanize (complete ++ t))])
      else if 10 ≤ (acc ++ t).length ∨ (1 : ℚ) / 2 ≤ ch.time - lastT then
        streamLoop humanize user_message rest (complete ++ t) "" ch.time
          (evs ++ [SseEvent.chunk (acc ++ t)])
      else
        streamLoop humanize user_message rest (complete ++ t) (acc ++ t)
          lastT evs

/-- `generate_stream` (lines 1802-1908).  `upstream` is the outcome of the
streaming POST to Ollama (`Except.error` = a `RequestException` before any
line is read); `t0` is `last_chunk_time`'s initial `time.time()` value;
`humanize` stands for `humanize_response` (randomised in the source, so
passed in).  Returns the yielded events and the content saved to
`chat_messages` (`none` when the error handler skipped the save). -/
def generate_stream (humanize : String → String) (user_message : String)
    (upstream : Except String (List OllamaChunk)) (t0 : ℚ) :
    List SseEvent × Option String :=
  match upstream with
  | Except.error e =>
    ([SseEvent.typing true,
      SseEvent.httpError ("Error communicating with Ollama: " ++ e)], none)
  | Except.ok chunks =>
    let r := streamLoop humanize user_message chunks "" "" t0
      [SseEvent.typing true]
    let stored := if isSimpleGreeting user_message = true then r.1
      else humanize r.1
    (r.2 ++ [SseEvent.done], some stored)

/-! ### Row-level Supabase writes of the application (`main.py` lines
288-318, 1242-1252, 1891-1898)

Greps over the backend find exactly four row-write sites: the
`user_personal_details` update/insert inside `extract_personal_details`
and the `chat_messages` insert in each chat handler (plus one DDL
`rpc("exec_sql", CREATE TABLE user_personal_details ...)` in
`ensure_database_tables`, which writes no rows).  `analyze_voice_style`
(lines 101-125) only computes statistics and is never called; the former
text-style analyzer that maintained `user_style_profiles` is commented out
(lines 53-99). -/

/-- A value stored in a row: a string column or a text-list column. -/
inductive DbVal
  | s (v : String)
  | l (v : List String)
  deriving DecidableEq

/-- A row-level write against Supabase. -/
inductive SupaWrite
  | insert (table : String) (row : List (String × DbVal))
  | update (table : String) (row : List (String × DbVal))
  | delete (table : String)
  deriving DecidableEq

/-- The table a write targets. -/
def writeTable : SupaWrite → String
  | SupaWrite.insert t _ => t
  | SupaWrite.update t _ => t
  | SupaWrite.delete t => t

/-- Whether a write is an update or a delete. -/
def isMutationOfExisting : SupaWrite → Bool
  | SupaWrite.insert _ _ => false
  | SupaWrite.update _ _ => true
  | SupaWrite.delete _ => true

/-- Category lists of a `user_personal_details` record as row columns. -/
def detailsRow (r : List (String × List String)) : List (String × DbVal) :=
  r.map fun cv => (cv.1, DbVal.l cv.2)

/-- The writes `extract_personal_details` performs (lines 283-318): nothing
unless both the extracted `details` and `user_id` are truthy; then an
update with the merged categories when a record exists (its non-category
columns are carried through unchanged and omitted here), else an insert of
a fresh record. -/
def personalDetailsWrites (user_id : String)
    (details : List (String × List String))
    (existing : Option (List (String × List String))) : List SupaWrite :=
  if details ≠ [] ∧ user_id ≠ "" then
    match existing with
    | some stored =>
      [SupaWrite.update "user_personal_details"
        (detailsRow (mergeDetails stored details))]
    | none =>
      [SupaWrite.insert "user_personal_details"
        (("user_id", DbVal.s user_id) :: detailsRow details)]
  else []

/-- The AI-response row both chat handlers insert into `chat_messages`
(lines 1243-1248 and 1891-1896): keyed by the user's id, message id
`"ai_" + uuid4()`, author `"ai"`. -/
def chatMessagesRow (user_id uuid content : String) : List (String × DbVal) :=
  [("user_id", DbVal.s user_id),
   ("message_id", DbVal.s ("ai_" ++ uuid)),
   ("content", DbVal.s content),
   ("author_id", DbVal.s "ai")]

/-- All row writes a `/chat` request performs: `extract_personal_details`
at line 1153 (`d1`/`e1`: details extracted from the message, existing
record), the same call again inside `humanize_response` at line 434
(`d2`/`e2`), and the AI-response insert at lines 1243-1248. -/
def chatEndpointWrites (user_id uuid aiText : String)
    (d1 : List (String × List String))
    (e1 : Option (List (String × List String)))
    (d2 : List (String × List String))
    (e2 : Option (List (String × List String))) : List SupaWrite :=
  personalDetailsWrites user_id d1 e1 ++ personalDetailsWrites user_id d2 e2 ++
    [SupaWrite.insert "chat_messages" (chatMessagesRow user_id uuid aiText)]

/-- All row writes a `/chat/stream` request performs:
`extract_personal_details` at line 1756, the calls inside the
`humanize_response` invocations of `generate_stream` (lines 1837 and 1889;
`d2`/`e2` stands for these humanize-internal extractions — each such write
has exactly the `personalDetailsWrites` shape, so one entry covers them),
and the AI-response insert at lines 1891-1896. -/
def chatStreamWrites (user_id uuid aiText : String)
    (d1 : List (String × List String))
    (e1 : Option (List (String × List String)))
    (d2 : List (String × List String))
    (e2 : Option (List (String × List String))) : List SupaWrite :=
  personalDetailsWrites user_id d1 e1 ++ personalDetailsWrites user_id d2 e2 ++
    [SupaWrite.insert "chat_messages" (chatMessagesRow user_id uuid aiText)]

/-- Every row-level Supabase write in the application code, across both
chat handlers (the four grep-identified write sites; no other module
writes rows). -/
def appRowWrites (user_id uuidA textA uuidB textB : String)
    (d1 : List (String × List String)) (e1 : Option (List (String × List String)))
    (d2 : List (String × List String)) (e2 : Option (List (String × List String)))
    (d3 : List (String × List String)) (e3 : Option (List (String × List String)))
    (d4 : List (String × List String)) (e4 : Option (List (String × List String))) :
    List SupaWrite :=
  chatEndpointWrites user_id uuidA textA d1 e1 d2 e2 ++
    chatStreamWrites user_id uuidB textB d3 e3 d4 e4

/-! ### The tail of the `/chat` endpoint after a successful Ollama call
(`main.py` lines 1237-1254) -/

/-- Lines 1237-1254: the humanized text is computed from the retry loop's
response, the `chat_messages` insert is attempted, and whatever the insert
does (`APIError` and generic `Exception` are both caught and only
printed), the handler returns the humanized text.  Returns the HTTP result
and the attempted write. -/
def chatEndpointRespond (f : Nat → OllamaOutcome) (humanize : String → String)
    (user_id uuid : String) (insertResult : Except String Unit) :
    Except (Nat × String) String × List SupaWrite :=
  match (chatRetry f).result with
  | Except.error e => (Except.error e, [])
  | Except.ok raw =>
    let text := humanize raw
    let attempted :=
      [SupaWrite.insert "chat_messages" (chatMessagesRow user_id uuid text)]
    match insertResult with
    | Except.ok _ => (Except.ok text, attempted)
    | Except.error _ => (Except.ok text, attempted)

/-! ### The `/transcribe` endpoint (`main.py` lines 1289-1314) -/

/-- Python `a or b` on two optional strings: `a` when it is truthy
(present and non-empty), else `b`. -/
def pyOr (a b : Option String) : Option String :=
  match a with
  | some s => if s = "" then b else some s
  | none => b

/-- Truthiness of an optional string: present and non-empty. -/
def optTruthy (o : Option String) : Bool :=
  match o with
  | some s => decide (s ≠ "")
  | none => false

/-- The standard base64 alphabet, as `base64.b64encode` uses it. -/
def b64Alphabet : List Char :=
  "ABCDEFGHIJKLMNOPQRSTUVWXYZabcdefghijklmnopqrstuvwxyz0123456789+/".toList

/-- The base64 digit for a 6-bit value. -/
def b64Char (n : Nat) : Char := b64Alphabet.getD n 'A'

/-- `base64.b64encode` over a byte list (values < 256), with `=` padding. -/
def b64Encode : List Nat → String
  | [] => ""
  | [a] => String.mk [b64Char (a / 4), b64Char (a % 4 * 16)] ++ "=="
  | [a, b] =>
    String.mk [b64Char (a / 4), b64Char (a % 4 * 16 + b / 16),
      b64Char (b % 16 * 4)] ++ "="
  | a :: b :: c :: rest =>
    String.mk [b64Char (a / 4), b64Char (a % 4 * 16 + b / 16),
      b64Char (b % 16 * 4 + c / 64), b64Char (c % 64)] ++ b64Encode rest

/-- The 400 detail of `/transcribe` (line 1295). -/
def transcribeMissingIdDetail : String :=
  "User ID must be provided either in query parameters (user_id_query) or headers (X-User-ID)."

/-- `transcribe_audio_file` (lines 1289-1314).  `user_id_query` is the
query parameter, `xUserIdHeader` the `X-User-ID` header; `fileRead` the
outcome of `await file.read()`; `delay audio64 user_id` the outcome of
`transcribe_audio_task.delay(...)`, returning the task id.  Any exception
in the `try` block becomes HTTP 500. -/
def transcribe_audio_file (user_id_query xUserIdHeader : Option String)
    (fileRead : Except String (List Nat))
    (delay : String → String → Except String String) :
    Except (Nat × String) String :=
  let user_id := pyOr user_id_query xUserIdHeader
  if ¬ optTruthy user_id then
    Except.error (400, transcribeMissingIdDetail)
  else
    match fileRead with
    | Except.error e => Except.error (500, "An unexpected error occurred: " ++ e)
    | Except.ok bytes =>
      match delay (b64Encode bytes) (user_id.getD "") with
      | Except.ok taskId => Except.ok taskId
      | Except.error e => Except.error (500, "An unexpected error occurred: " ++ e)

/-! ### Argument wiring of `create_future_self_prompt` (`main.py` lines
796, 1187, 1790)

The function signature (line 796) is
`create_future_self_prompt(user_message: str, user_profile: dict, ...)`,
and its first executed profile access (line 799) is
`user_profile.get("user_name", "")`.  The `/chat` handler (line 1187)
passes `(user_data, user_message, ...)`; the `/chat/stream` handler
(line 1790) passes `(user_message, user_data, ...)`.  Python values
reaching the two parameters are modelled dynamically. -/

/-- A Python value as it reaches the prompt builder: the user's message
string or the fetched profile dict. -/
inductive PyVal
  | str (s : String)
  | dict (d : List (String × PyVal))

/-- Lookup in a Python dict value. -/
def lookupPy : List (String × PyVal) → String → Option PyVal
  | [], _ => none
  | (k, v) :: rest, key => if k = key then some v else lookupPy rest key

/-- Python `v.get(key, default)`: defined on dicts; on a string it raises
`AttributeError` (str has no method `get`). -/
def pyGetMethod (v : PyVal) (key : String) (default : PyVal) :
    Except String PyVal :=
  match v with
  | PyVal.dict d => Except.ok ((lookupPy d key).getD default)
  | PyVal.str _ =>
    Except.error "AttributeError: 'str' object has no attribute 'get'"

/-- The two positional arguments bound to `create_future_self_prompt`'s
parameters `user_message` and `user_profile` at a call site. -/
structure PromptArgs where
  user_message : PyVal
  user_profile : PyVal

/-- Line 1187 (`/chat`): `create_future_self_prompt(user_data,
user_message, ...)` — the fetched profile dict is bound to the
`user_message` parameter and the message string to `user_profile`. -/
def chatPromptCall (user_data : List (String × PyVal)) (message : String) :
    PromptArgs :=
  { user_message := PyVal.dict user_data, user_profile := PyVal.str message }

/-- Line 1790 (`/chat/stream`): `create_future_self_prompt(user_message,
user_data, ...)` — message to `user_message`, profile to `user_profile`. -/
def chatStreamPromptCall (user_data : List (String × PyVal)) (message : String) :
    PromptArgs :=
  { user_message := PyVal.str message, user_profile := PyVal.dict user_data }

/-- Line 799, the first statement of `create_future_self_prompt` that
touches its parameters: `user_name = user_profile.get("user_name", "")`. -/
def promptFirstAccess (args : PromptArgs) : Except String PyVal :=
  pyGetMethod args.user_profile "user_name" (PyVal.str "")

/-- A concrete fetched `users` row, for evaluating the call sites. -/
def demoUserRow : List (String × PyVal) :=
  [("name", PyVal.str "Sam"), ("future_age", PyVal.str "32"),
   ("nationality", PyVal.str "Japan")]

/-! ## Theorems -/

/-- C4.  The two Celery configurations disagree on the hard time limit:
`tasks.py` assigns `task_time_limit = 600` (with a 300 second soft limit
and late acks), while `celery_worker.py` — the module whose `__main__`
starts the worker — assigns `task_time_limit = 30 * 60 = 1800`. -/
theorem celery_task_time_limits (redisUrl : Option String) :
    (tasksCeleryConf redisUrl).task_time_limit = some 600 ∧
    (tasksCeleryConf redisUrl).task_soft_time_limit = some 300 ∧
    (tasksCeleryConf redisUrl).task_acks_late = some true ∧
    (workerCeleryConf redisUrl).task_time_limit = some 1800 :=
  ⟨rfl, rfl, rfl, rfl⟩

/-- C4 counterexample.  The configuration `celery_worker.py` applies sets
the hard time limit to 1800 seconds (30 minutes), not 600. -/
theorem celery_worker_time_limit_not_600 :
    (workerCeleryConf none).task_time_limit = some 1800 ∧
    (workerCeleryConf none).task_time_limit ≠ some 600 :=
  ⟨rfl, by decide⟩

/-- C10.  `get_zodiac_sign` returns a sign for every longitude in
`[0, 360)`, while for `longitude ≥ 360` the computed index
`⌊longitude / 30⌋` is at least 12 and the list lookup is out of bounds. -/
theorem get_zodiac_sign_bounds (longitude : ℚ) :
    (0 ≤ longitude → longitude < 360 → ∃ s, get_zodiac_sign longitude = some s) ∧
    (360 ≤ longitude → 12 ≤ ⌊longitude / 30⌋ ∧ get_zodiac_sign longitude = none) := by
  have hlen : zodiac_signs.length = 12 := rfl
  constructor
  · intro h0 h1
    have hq0 : (0 : ℚ) ≤ longitude / 30 := by positivity
    have hq1 : longitude / 30 < 12 := by linarith
    have hf0 : (0 : ℤ) ≤ ⌊longitude / 30⌋ := Int.floor_nonneg.mpr hq0
    have hf1 : ⌊longitude / 30⌋ < 12 := by
      have : longitude / 30 < ((12 : ℤ) : ℚ) := by exact_mod_cast hq1
      exact Int.floor_lt.mpr this
    have hn : ⌊longitude / 30⌋.toNat < zodiac_signs.length := by omega
    unfold get_zodiac_sign pyListGet
    rw [if_pos hf0]
    exact ⟨zodiac_signs.get ⟨_, hn⟩, List.get?_eq_get hn⟩
  · intro h
    have hq : ((12 : ℤ) : ℚ) ≤ longitude / 30 := by
      push_cast
      linarith
    have hf : (12 : ℤ) ≤ ⌊longitude / 30⌋ := Int.le_floor.mpr hq
    refine ⟨hf, ?_⟩
    unfold get_zodiac_sign pyListGet
    rw [if_pos (by omega : (0 : ℤ) ≤ ⌊longitude / 30⌋)]
    exact List.get?_eq_none.mpr (by omega)

/-- C10 witness: longitude 100 falls in house index 3 (Cancer), longitude
400 indexes past the end of the sign list. -/
theorem get_zodiac_sign_bounds_witness :
    (∃ s, get_zodiac_sign 100 = some s) ∧ get_zodiac_sign 400 = none :=
  ⟨(get_zodiac_sign_bounds 100).1 (by norm_num) (by norm_num),
    ((get_zodiac_sign_bounds 400).2 (by norm_num)).2⟩

/-- C1.  Evaluating the argument wiring at a concrete request: the `/chat`
call site (line 1187) binds the message string to the `user_profile`
parameter, so the first profile access of `create_future_self_prompt`
raises `AttributeError`; the `/chat/stream` call site (line 1790) binds
the profile dict there and the access succeeds. -/
theorem chat_prompt_call_crashes :
    promptFirstAccess (chatPromptCall demoUserRow "I want to run a marathon") =
      Except.error "AttributeError: 'str' object has no attribute 'get'" ∧
    promptFirstAccess
        (chatStreamPromptCall demoUserRow "I want to run a marathon") =
      Except.ok (PyVal.str "") :=
  ⟨rfl, rfl⟩

/-- C7.  When the Ollama retry loop succeeded, the `/chat` handler returns
the humanized response text whatever the `chat_messages` insert did: the
insert failure is caught and changes nothing about the returned value. -/
theorem chat_db_failure_still_returns (f : Nat → OllamaOutcome)
    (humanize : String → String) (user_id uuid : String)
    (ins ins' : Except String Unit) (raw : String)
    (hok : (chatRetry f).result = Except.ok raw) :
    (chatEndpointRespond f humanize user_id uuid ins).1 =
      Except.ok (humanize raw) ∧
    (chatEndpointRespond f humanize user_id uuid ins).1 =
      (chatEndpointRespond f humanize user_id uuid ins').1 := by
  unfold chatEndpointRespond
  rw [hok]
  cases ins <;> cases ins' <;> exact ⟨rfl, rfl⟩

/-- C7 witness: a concrete successful call whose insert raises still
returns the humanized text, equal to what a successful insert returns. -/
theorem chat_db_failure_still_returns_witness :
    (chatEndpointRespond (fun _ => OllamaOutcome.ok " Hello ") id "u1" "42"
        (Except.error "db down")).1 = Except.ok (id "Hello") ∧
    (chatEndpointRespond (fun _ => OllamaOutcome.ok " Hello ") id "u1" "42"
        (Except.error "db down")).1 =
      (chatEndpointRespond (fun _ => OllamaOutcome.ok " Hello ") id "u1" "42"
        (Except.ok ())).1 :=
  chat_db_failure_still_returns (fun _ => OllamaOutcome.ok " Hello ") id "u1"
    "42" (Except.error "db down") (Except.ok ()) "Hello" rfl

/-- C3.  The Ollama POST is attempted at most 3 times; the only possible
sleep sequences are none, 5 seconds, or 5 then 10 seconds; and when all
three attempts fail with a timeout or connection error the handler ends
with HTTP 503 after sleeping 5 and then 10 seconds. -/
theorem chat_retry_backoff (f : Nat → OllamaOutcome) :
    (chatRetry f).attempts ≤ 3 ∧
    ((chatRetry f).sleeps = [] ∨ (chatRetry f).sleeps = [5] ∨
      (chatRetry f).sleeps = [5, 10]) ∧
    (∀ t, f 0 = OllamaOutcome.ok t →
      chatRetry f = ⟨1, [], Except.ok (pyStrip t)⟩) ∧
    (∀ t, retryable (f 0) → f 1 = OllamaOutcome.ok t →
      chatRetry f = ⟨2, [5], Except.ok (pyStrip t)⟩) ∧
    (∀ t, retryable (f 0) → retryable (f 1) → f 2 = OllamaOutcome.ok t →
      chatRetry f = ⟨3, [5, 10], Except.ok (pyStrip t)⟩) ∧
    (retryable (f 0) → retryable (f 1) → retryable (f 2) →
      (chatRetry f).attempts = 3 ∧ (chatRetry f).sleeps = [5, 10] ∧
      ∃ d, (chatRetry f).result = Except.error (503, d)) := by
  rcases h0 : f 0 with r0 | _ | _ | _ <;>
  rcases h1 : f 1 with r1 | _ | _ | _ <;>
  rcases h2 : f 2 with r2 | _ | _ | _ <;>
    simp [chatRetry, chatRetryGo, h0, h1, h2, retryable]

/-- Truthiness of Python `a or b` over optional strings. -/
theorem pyOr_truthy (q h : Option String) :
    optTruthy (pyOr q h) = (optTruthy q || optTruthy h) := by
  cases q with
  | none => simp [pyOr, optTruthy]
  | some s =>
    by_cases hs : s = "" <;> simp [pyOr, optTruthy, hs]

/-- C9.  The `/transcribe` handler fails with HTTP 400 exactly when neither
the `user_id_query` parameter nor the `X-User-ID` header supplies a
(non-empty) user id; when one does, the handler submits the base64-encoded
file to the transcription task and returns the task's id (an internal
exception yields HTTP 500 instead). -/
theorem transcribe_400_iff (q h : Option String)
    (fileRead : Except String (List Nat))
    (delay : String → String → Except String String) :
    ((∃ msg, transcribe_audio_file q h fileRead delay =
        Except.error (400, msg)) ↔
      (optTruthy q = false ∧ optTruthy h = false)) ∧
    (∀ bytes taskId,
      (optTruthy q || optTruthy h) = true →
      fileRead = Except.ok bytes →
      delay (b64Encode bytes) ((pyOr q h).getD "") = Except.ok taskId →
      transcribe_audio_file q h fileRead delay = Except.ok taskId) := by
  have ht := pyOr_truthy q h
  constructor
  · unfold transcribe_audio_file
    by_cases hb : optTruthy (pyOr q h)
    · rw [if_neg (by simp [hb])]
      constructor
      · rintro ⟨msg, hmsg⟩
        exfalso
        rcases fileRead with e | bytes
        · simp at hmsg
        · rcases hd : delay (b64Encode bytes) ((pyOr q h).getD "") with e | tid <;>
            simp [hd] at hmsg
      · rintro ⟨hq, hh⟩
        rw [ht, hq, hh] at hb
        simp at hb
    · rw [if_pos (by simpa using hb)]
      rw [ht] at hb
      simp only [Bool.or_eq_true, not_or, Bool.not_eq_true] at hb
      exact ⟨fun _ => hb, fun _ => ⟨transcribeMissingIdDetail, rfl⟩⟩
  · intro bytes taskId htr hfr hd
    unfold transcribe_audio_file
    rw [if_neg (by simp [ht, htr])]
    rw [hfr]
    simp only []
    rw [hd]

/-- Every write `extract_personal_details` performs targets the
`user_personal_details` table. -/
theorem personalDetailsWrites_table (u : String)
    (d : List (String × List String))
    (e : Option (List (String × List String))) :
    ∀ w ∈ personalDetailsWrites u d e,
      writeTable w = "user_personal_details" := by
  intro w hw
  unfold personalDetailsWrites at hw
  split at hw
  · cases e with
    | some stored => simp at hw; subst hw; rfl
    | none => simp at hw; subst hw; rfl
  · simp at hw

/-- C6.  Across all row writes of the two chat handlers, every write that
targets `chat_messages` is an insert of a fresh AI row keyed by the user's
id with author `"ai"`, and no update or delete ever targets
`chat_messages`. -/
theorem chat_messages_append_only (user_id uuidA textA uuidB textB : String)
    (d1 d2 d3 d4 : List (String × List String))
    (e1 e2 e3 e4 : Option (List (String × List String))) :
    (∀ w ∈ appRowWrites user_id uuidA textA uuidB textB d1 e1 d2 e2 d3 e3 d4 e4,
      writeTable w = "chat_messages" →
      ∃ uuid content, w = SupaWrite.insert "chat_messages"
        (chatMessagesRow user_id uuid content)) ∧
    (∀ w ∈ appRowWrites user_id uuidA textA uuidB textB d1 e1 d2 e2 d3 e3 d4 e4,
      isMutationOfExisting w = true → writeTable w ≠ "chat_messages") := by
  have hmem : ∀ w ∈ appRowWrites user_id uuidA textA uuidB textB
      d1 e1 d2 e2 d3 e3 d4 e4,
      writeTable w = "user_personal_details" ∨
        w = SupaWrite.insert "chat_messages"
          (chatMessagesRow user_id uuidA textA) ∨
        w = SupaWrite.insert "chat_messages"
          (chatMessagesRow user_id uuidB textB) := by
    intro w hw
    unfold appRowWrites chatEndpointWrites chatStreamWrites at hw
    simp only [List.mem_append, List.mem_singleton] at hw
    rcases hw with ((h | h) | h) | (h | h) | h
    · exact Or.inl (personalDetailsWrites_table _ _ _ w h)
    · exact Or.inl (personalDetailsWrites_table _ _ _ w h)
    · exact Or.inr (Or.inl h)
    · exact Or.inl (personalDetailsWrites_table _ _ _ w h)
    · exact Or.inl (personalDetailsWrites_table _ _ _ w h)
    · exact Or.inr (Or.inr h)
  constructor
  · intro w hw htab
    rcases hmem w hw with h | h | h
    · exact absurd (h ▸ htab) (by decide)
    · exact ⟨uuidA, textA, h⟩
    · exact ⟨uuidB, textB, h⟩
  · intro w hw hmut
    rcases hmem w hw with h | h | h
    · rw [h]; decide
    · subst h; simp [isMutationOfExisting] at hmut
    · subst h; simp [isMutationOfExisting] at hmut

/-! ### Lemmas about the `extract_personal_details` merge -/

/-- `addNewUnique` only appends, and only values not already stored. -/
theorem addNewUnique_extends (cur vals : List String) :
    ∃ rest, addNewUnique cur vals = cur ++ rest ∧ ∀ x ∈ rest, x ∉ cur := by
  induction vals generalizing cur with
  | nil => exact ⟨[], by simp [addNewUnique], by simp⟩
  | cons v vs ih =>
    by_cases hv : v ∈ cur
    · obtain ⟨rest, h1, h2⟩ := ih cur
      exact ⟨rest, by rw [addNewUnique, if_pos hv]; exact h1, h2⟩
    · obtain ⟨rest, h1, h2⟩ := ih (cur ++ [v])
      refine ⟨v :: rest, ?_, ?_⟩
      · rw [addNewUnique, if_neg hv, h1, List.append_assoc]
        rfl
      · intro x hx
        rcases List.mem_cons.mp hx with rfl | hx
        · exact hv
        · intro hxc
          exact h2 x hx (List.mem_append.mpr (Or.inl hxc))

/-- Membership after `addNewUnique` is the union of the two lists. -/
theorem addNewUnique_mem (cur vals : List String) (x : String) :
    x ∈ addNewUnique cur vals ↔ x ∈ cur ∨ x ∈ vals := by
  induction vals generalizing cur with
  | nil => simp [addNewUnique]
  | cons v vs ih =>
    by_cases hv : v ∈ cur
    · rw [addNewUnique, if_pos hv, ih]
      constructor
      · rintro (h | h)
        · exact Or.inl h
        · exact Or.inr (List.mem_cons_of_mem _ h)
      · rintro (h | h)
        · exact Or.inl h
        · rcases List.mem_cons.mp h with rfl | h
          · exact Or.inl hv
          · exact Or.inr h
    · rw [addNewUnique, if_neg hv, ih]
      simp only [List.mem_append, List.mem_singleton, List.mem_cons]
      tauto

/-- Merging values that are all already stored changes nothing. -/
theorem addNewUnique_eq_self (cur vals : List String)
    (h : ∀ v ∈ vals, v ∈ cur) : addNewUnique cur vals = cur := by
  induction vals generalizing cur with
  | nil => rfl
  | cons v vs ih =>
    rw [addNewUnique, if_pos (h v (List.mem_cons_self v vs))]
    exact ih cur fun w hw => h w (List.mem_cons_of_mem _ hw)

/-- Assignment then lookup at the same key. -/
theorem lookupDetail_setDetail_self (r : List (String × List String))
    (c : String) (v : List String) :
    lookupDetail (setDetail r c v) c = some v := by
  induction r with
  | nil => simp [setDetail, lookupDetail]
  | cons p rest ih =>
    obtain ⟨k, w⟩ := p
    by_cases hk : k = c
    · simp [setDetail, hk, lookupDetail]
    · simp [setDetail, hk, lookupDetail, ih]

/-- Assignment leaves other keys untouched. -/
theorem lookupDetail_setDetail_other (r : List (String × List String))
    (c c' : String) (v : List String) (h : c' ≠ c) :
    lookupDetail (setDetail r c v) c' = lookupDetail r c' := by
  induction r with
  | nil => simp [setDetail, lookupDetail, Ne.symm h]
  | cons p rest ih =>
    obtain ⟨k, w⟩ := p
    by_cases hk : k = c
    · subst hk
      have hkc : ¬ k = c' := fun hc => h (hc.symm)
      simp [setDetail, lookupDetail, hkc]
    · have e : setDetail ((k, w) :: rest) c v = (k, w) :: setDetail rest c v := by
        simp [setDetail, hk]
      rw [e]
      by_cases hk' : k = c'
      · subst hk'
        simp [lookupDetail]
      · simp [lookupDetail, hk', ih]

/-- Assigning the value already stored is the identity. -/
theorem setDetail_eq_self (r : List (String × List String)) (c : String)
    (v : List String) (h : lookupDetail r c = some v) :
    setDetail r c v = r := by
  induction r with
  | nil => simp [lookupDetail] at h
  | cons p rest ih =>
    obtain ⟨k, w⟩ := p
    by_cases hk : k = c
    · subst hk
      have hv : w = v := by simpa [lookupDetail] using h
      subst hv
      simp [setDetail]
    · simp only [lookupDetail, if_neg hk] at h
      simp [setDetail, hk, ih h]

/-- After `mergeCategory`, the merged key holds all new values, and extends
whatever was stored with values not stored before. -/
theorem mergeCategory_lookup_self (r : List (String × List String))
    (c : String) (vals : List String) :
    ∃ m, lookupDetail (mergeCategory r c vals) c = some m ∧
      (∀ x ∈ vals, x ∈ m) ∧
      (∀ cur, lookupDetail r c = some cur →
        ∃ rest, m = cur ++ rest ∧ ∀ x ∈ rest, x ∉ cur) := by
  cases hl : lookupDetail r c with
  | none =>
    refine ⟨vals, ?_, fun x hx => hx, ?_⟩
    · simp only [mergeCategory, hl]
      exact lookupDetail_setDetail_self r c vals
    · intro cur hcur
      cases hcur
  | some cur =>
    by_cases hc : cur = []
    · subst hc
      refine ⟨vals, ?_, fun x hx => hx, ?_⟩
      · simp only [mergeCategory, hl, if_pos rfl]
        exact lookupDetail_setDetail_self r c vals
      · intro cur' hcur'
        obtain rfl : ([] : List String) = cur' := Option.some_inj.mp hcur'
        exact ⟨vals, rfl, by simp⟩
    · refine ⟨addNewUnique cur vals, ?_,
        fun x hx => (addNewUnique_mem cur vals x).mpr (Or.inr hx), ?_⟩
      · simp only [mergeCategory, hl, if_neg hc]
        exact lookupDetail_setDetail_self r c (addNewUnique cur vals)
      · intro cur' hcur'
        obtain rfl : cur = cur' := Option.some_inj.mp hcur'
        exact addNewUnique_extends cur vals

/-- `mergeCategory` leaves other keys untouched. -/
theorem mergeCategory_lookup_other (r : List (String × List String))
    (c c' : String) (vals : List String) (h : c' ≠ c) :
    lookupDetail (mergeCategory r c vals) c' = lookupDetail r c' := by
  cases hl : lookupDetail r c with
  | none =>
    simp only [mergeCategory, hl]
    exact lookupDetail_setDetail_other r c c' vals h
  | some cur =>
    simp only [mergeCategory, hl]
    split <;> exact lookupDetail_setDetail_other r c c' _ h

/-- Unfolding of `mergeDetails` on a cons cell. -/
theorem mergeDetails_cons (r : List (String × List String)) (k : String)
    (vals : List String) (d : List (String × List String)) :
    mergeDetails r ((k, vals) :: d) = mergeDetails (mergeCategory r k vals) d :=
  rfl

/-- Stored values survive a whole merge in place: the merged list extends
the stored one, appending only values that were not stored. -/
theorem mergeDetails_lookup_grows (d : List (String × List String)) :
    ∀ r c cur, lookupDetail r c = some cur →
      ∃ rest, lookupDetail (mergeDetails r d) c = some (cur ++ rest) ∧
        ∀ x ∈ rest, x ∉ cur := by
  induction d with
  | nil =>
    intro r c cur h
    exact ⟨[], by simpa [mergeDetails] using h, by simp⟩
  | cons p d ih =>
    intro r c cur h
    obtain ⟨k, vals⟩ := p
    rw [mergeDetails_cons]
    by_cases hc : c = k
    · subst hc
      obtain ⟨m, hm, _, hpre⟩ := mergeCategory_lookup_self r c vals
      obtain ⟨rest0, hm0, h0⟩ := hpre cur h
      obtain ⟨rest1, hfin, h1⟩ := ih (mergeCategory r c vals) c m hm
      refine ⟨rest0 ++ rest1, ?_, ?_⟩
      · rw [hfin, hm0, List.append_assoc]
      · intro x hx
        rcases List.mem_append.mp hx with hx | hx
        · exact h0 x hx
        · intro hxc
          have := h1 x hx
          rw [hm0] at this
          exact this (List.mem_append.mpr (Or.inl hxc))
    · have hun : lookupDetail (mergeCategory r k vals) c = some cur := by
        rw [mergeCategory_lookup_other r k c vals hc]
        exact h
      exact ih _ c cur hun

/-- Every value of an extracted category is present after the merge. -/
theorem mergeDetails_mem_new (d : List (String × List String)) :
    ∀ r c vals, (c, vals) ∈ d →
      ∃ m, lookupDetail (mergeDetails r d) c = some m ∧
        ∀ x ∈ vals, x ∈ m := by
  induction d with
  | nil =>
    intro r c vals h
    simp at h
  | cons p d ih =>
    intro r c vals h
    obtain ⟨k, kvals⟩ := p
    rw [mergeDetails_cons]
    rcases List.mem_cons.mp h with heq | hmem
    · cases heq
      obtain ⟨m0, hm0, hv0, _⟩ := mergeCategory_lookup_self r c vals
      obtain ⟨rest, hfin, _⟩ := mergeDetails_lookup_grows d _ c m0 hm0
      exact ⟨m0 ++ rest, hfin,
        fun x hx => List.mem_append.mpr (Or.inl (hv0 x hx))⟩
    · exact ih _ c vals hmem

/-- Merging a category whose values are all already present changes
nothing. -/
theorem mergeCategory_eq_self (r : List (String × List String)) (c : String)
    (vals : List String)
    (h : ∃ m, lookupDetail r c = some m ∧ ∀ x ∈ vals, x ∈ m) :
    mergeCategory r c vals = r := by
  obtain ⟨m, hm, hv⟩ := h
  by_cases hnil : m = []
  · subst hnil
    have hve : vals = [] :=
      List.eq_nil_iff_forall_not_mem.mpr fun x hx => by simpa using hv x hx
    subst hve
    simp only [mergeCategory, hm, if_pos rfl]
    exact setDetail_eq_self r c [] hm
  · simp only [mergeCategory, hm, if_neg hnil]
    rw [addNewUnique_eq_self m vals hv]
    exact setDetail_eq_self r c m hm

/-- The whole merge is idempotent: merging the same extracted details a
second time changes nothing. -/
theorem mergeDetails_idem (d : List (String × List String)) :
    ∀ r, mergeDetails (mergeDetails r d) d = mergeDetails r d := by
  induction d with
  | nil => intro r; rfl
  | cons p d ih =>
    intro r
    obtain ⟨k, vals⟩ := p
    simp only [mergeDetails_cons]
    have hX : ∃ m,
        lookupDetail (mergeDetails (mergeCategory r k vals) d) k = some m ∧
        ∀ x ∈ vals, x ∈ m := by
      obtain ⟨m0, hm0, hv0, _⟩ := mergeCategory_lookup_self r k vals
      obtain ⟨rest, hfin, _⟩ := mergeDetails_lookup_grows d _ k m0 hm0
      exact ⟨m0 ++ rest, hfin,
        fun x hx => List.mem_append.mpr (Or.inl (hv0 x hx))⟩
    rw [mergeCategory_eq_self _ _ _ hX]
    exact ih _

/-- C5.  The merge of `extract_personal_details` is a simple list union:
stored values are retained in place (the merged list extends the stored
one and appends only values that were not stored), every newly extracted
value is present afterwards, and merging the same extracted details a
second time leaves every category list unchanged. -/
theorem personal_details_merge_union (stored newD : List (String × List String)) :
    (∀ c cur, lookupDetail stored c = some cur →
      ∃ rest, lookupDetail (mergeDetails stored newD) c = some (cur ++ rest) ∧
        ∀ x ∈ rest, x ∉ cur) ∧
    (∀ c vals, (c, vals) ∈ newD →
      ∃ m, lookupDetail (mergeDetails stored newD) c = some m ∧
        ∀ x ∈ vals, x ∈ m) ∧
    mergeDetails (mergeDetails stored newD) newD = mergeDetails stored newD :=
  ⟨fun c cur h => mergeDetails_lookup_grows newD stored c cur h,
   fun c vals h => mergeDetails_mem_new newD stored c vals h,
   mergeDetails_idem newD stored⟩

/-- C8 (amended).  The application's row writes only ever target
`user_personal_details` and `chat_messages`: no application code writes
(in particular, overwrites) a `user_style_profiles` row. -/
theorem app_row_writes_tables (user_id uuidA textA uuidB textB : String)
    (d1 d2 d3 d4 : List (String × List String))
    (e1 e2 e3 e4 : Option (List (String × List String))) :
    ∀ w ∈ appRowWrites user_id uuidA textA uuidB textB d1 e1 d2 e2 d3 e3 d4 e4,
      writeTable w = "user_personal_details" ∨
        writeTable w = "chat_messages" := by
  intro w hw
  unfold appRowWrites chatEndpointWrites chatStreamWrites at hw
  simp only [List.mem_append, List.mem_singleton] at hw
  rcases hw with ((h | h) | h) | (h | h) | h
  · exact Or.inl (personalDetailsWrites_table _ _ _ w h)
  · exact Or.inl (personalDetailsWrites_table _ _ _ w h)
  · subst h; exact Or.inr rfl
  · exact Or.inl (personalDetailsWrites_table _ _ _ w h)
  · exact Or.inl (personalDetailsWrites_table _ _ _ w h)
  · subst h; exact Or.inr rfl

/-- C8 witness: the AI-response insert of a concrete `/chat` trace targets
one of the two written tables. -/
theorem app_row_writes_tables_witness :
    writeTable (SupaWrite.insert "chat_messages"
        (chatMessagesRow "u1" "aaaa" "x")) = "user_personal_details" ∨
      writeTable (SupaWrite.insert "chat_messages"
        (chatMessagesRow "u1" "aaaa" "x")) = "chat_messages" :=
  app_row_writes_tables "u1" "aaaa" "x" "bbbb" "y" [] [] [] []
    none none none none
    (SupaWrite.insert "chat_messages" (chatMessagesRow "u1" "aaaa" "x"))
    (by decide)

/-- C8 counterexample input: a full concrete processing trace (both chat
handlers, extraction hitting every branch) contains no write to
`user_style_profiles`, so no code replaces that row on each message. -/
theorem no_style_profile_write_concrete :
    ((appRowWrites "u1" "aaaa" "hello there friend" "bbbb" "take a walk"
        [("goals", ["run a marathon"])] (some [("goals", ["travel more"])])
        [] none
        [("interests", ["painting"])] none
        [] (some [])).all
      fun w => writeTable w != "user_style_profiles") = true := by decide

/-! ### Text bookkeeping for the SSE generator -/

/-- The concatenated text of the plain `data: {'text': ...}` frames. -/
def sseTextConcat : List SseEvent → String
  | [] => ""
  | SseEvent.chunk t :: rest => t ++ sseTextConcat rest
  | SseEvent.typing _ :: rest => sseTextConcat rest
  | SseEvent.chunkDone _ :: rest => sseTextConcat rest
  | SseEvent.done :: rest => sseTextConcat rest
  | SseEvent.httpError _ :: rest => sseTextConcat rest

/-- The full upstream response: concatenation of the `response` fields. -/
def chunksText : List OllamaChunk → String
  | [] => ""
  | ch :: rest => ch.response.getD "" ++ chunksText rest

/-- `sseTextConcat` distributes over list append. -/
theorem sseTextConcat_append (a b : List SseEvent) :
    sseTextConcat (a ++ b) = sseTextConcat a ++ sseTextConcat b := by
  induction a with
  | nil => simp [sseTextConcat, String.empty_append]
  | cons e a ih =>
    cases e <;>
      simp [sseTextConcat, ih, String.append_assoc]

/-- The stream loop yields no error frame: an error frame in its output was
already among the previously yielded events. -/
theorem streamLoop_no_error (humanize : String → String) (msg : String)
    (chunks : List OllamaChunk) :
    ∀ complete acc lastT evs m,
      SseEvent.httpError m ∈
        (streamLoop humanize msg chunks complete acc lastT evs).2 →
      SseEvent.httpError m ∈ evs := by
  induction chunks with
  | nil =>
    intro complete acc lastT evs m h
    simpa [streamLoop] using h
  | cons ch rest ih =>
    intro complete acc lastT evs m h
    obtain ⟨resp, dn, tm⟩ := ch
    cases resp with
    | none =>
      exact ih complete acc lastT evs m (by simpa [streamLoop] using h)
    | some t =>
      simp only [streamLoop] at h
      split at h
      · simp only [Prod.snd] at h
        rcases List.mem_append.mp h with h | h
        · exact h
        · simp at h
      · split at h
        · have := ih (complete ++ t) "" tm
            (evs ++ [SseEvent.chunk (acc ++ t)]) m h
          rcases List.mem_append.mp this with h' | h'
          · exact h'
          · simp at h'
        · exact ih (complete ++ t) (acc ++ t) lastT evs m h

/-- A full-humanized-text frame can only come from the simple-greeting
branch: a `chunkDone` frame in the loop's output that was not already
among the previously yielded events implies the message is a simple
greeting. -/
theorem streamLoop_chunkDone_greeting (humanize : String → String)
    (msg : String) (chunks : List OllamaChunk) :
    ∀ complete acc lastT evs s,
      SseEvent.chunkDone s ∈
        (streamLoop humanize msg chunks complete acc lastT evs).2 →
      SseEvent.chunkDone s ∈ evs ∨ isSimpleGreeting msg = true := by
  induction chunks with
  | nil =>
    intro complete acc lastT evs s h
    exact Or.inl (by simpa [streamLoop] using h)
  | cons ch rest ih =>
    intro complete acc lastT evs s h
    obtain ⟨resp, dn, tm⟩ := ch
    cases resp with
    | none =>
      exact ih complete acc lastT evs s (by simpa [streamLoop] using h)
    | some t =>
      simp only [streamLoop] at h
      split at h
      · rename_i hcond
        exact Or.inr hcond.2.1
      · split at h
        · rcases ih (complete ++ t) "" tm
            (evs ++ [SseEvent.chunk (acc ++ t)]) s h with h' | h'
          · rcases List.mem_append.mp h' with h'' | h''
            · exact Or.inl h''
            · simp at h''
          · exact Or.inr h'
        · exact ih (complete ++ t) (acc ++ t) lastT evs s h

/-- For a non-greeting message, the text the stream loop has sent is always
a prefix of the text received so far: the not-yet-flushed tail is `rest`. -/
theorem streamLoop_text (humanize : String → String) (msg : String)
    (chunks : List OllamaChunk) (hg : isSimpleGreeting msg = false) :
    ∀ complete acc lastT evs,
      ∃ rest, sseTextConcat evs ++ acc ++ chunksText chunks =
        sseTextConcat
          (streamLoop humanize msg chunks complete acc lastT evs).2 ++ rest := by
  induction chunks with
  | nil =>
    intro complete acc lastT evs
    exact ⟨acc, by
      simp [streamLoop, chunksText, String.append_empty, String.append_assoc]⟩
  | cons ch rest' ih =>
    intro complete acc lastT evs
    obtain ⟨resp, dn, tm⟩ := ch
    cases resp with
    | none =>
      obtain ⟨r0, hr0⟩ := ih complete acc lastT evs
      refine ⟨r0, ?_⟩
      simpa [streamLoop, chunksText, String.empty_append] using hr0
    | some t =>
      simp only [streamLoop]
      split
      · rename_i hcond
        exact absurd hcond.2.1 (by simp [hg])
      · split
        · obtain ⟨r0, hr0⟩ := ih (complete ++ t) "" tm
            (evs ++ [SseEvent.chunk (acc ++ t)])
          refine ⟨r0, ?_⟩
          rw [← hr0, sseTextConcat_append]
          simp [sseTextConcat, chunksText, String.append_assoc,
            String.append_empty, String.empty_append]
        · obtain ⟨r0, hr0⟩ := ih (complete ++ t) (acc ++ t) lastT evs
          refine ⟨r0, ?_⟩
          rw [← hr0]
          simp [chunksText, String.append_assoc]

/-- C2 (amended).  When the upstream Ollama call succeeds, the generator
never yields an error frame; a full-humanized-text (`chunkDone`) frame is
yielded only when the user message is a simple greeting; for a
non-greeting message the concatenated text of the yielded `data` frames
is a prefix of the upstream response — the unsent remainder `rest` is the
accumulated tail that never reached the 10-character / 0.5-second flush
thresholds; and at a concrete simple greeting whose humanization changes
the text, the whole humanized response goes out as a single text frame
below both thresholds, followed only by the done event. -/
theorem stream_success_no_error_and_prefix (humanize : String → String)
    (msg : String) (chunks : List OllamaChunk) (t0 : ℚ) :
    (∀ m, SseEvent.httpError m ∉
      (generate_stream humanize msg (Except.ok chunks) t0).1) ∧
    (∀ s, SseEvent.chunkDone s ∈
        (generate_stream humanize msg (Except.ok chunks) t0).1 →
      isSimpleGreeting msg = true) ∧
    (isSimpleGreeting msg = false →
      ∃ rest, chunksText chunks =
        sseTextConcat (generate_stream humanize msg (Except.ok chunks) t0).1 ++
          rest) ∧
    generate_stream (fun _ => "Hey! How are you?") "hey"
        (Except.ok [{ response := some "Hi.", done := true, time := 0 }]) 0 =
      ([SseEvent.typing true, SseEvent.typing false,
        SseEvent.chunkDone "Hey! How are you?", SseEvent.done],
        some "Hey! How are you?") := by
  refine ⟨?_, ?_, ?_, ?_⟩
  · intro m hm
    simp only [generate_stream] at hm
    rcases List.mem_append.mp hm with hm | hm
    · have := streamLoop_no_error humanize msg chunks "" "" t0
        [SseEvent.typing true] m hm
      simp at this
    · simp at hm
  · intro s hs
    simp only [generate_stream] at hs
    rcases List.mem_append.mp hs with hs | hs
    · rcases streamLoop_chunkDone_greeting humanize msg chunks "" "" t0
        [SseEvent.typing true] s hs with h' | h'
      · simp at h'
      · exact h'
    · simp at hs
  · intro hg
    obtain ⟨rest, hrest⟩ := streamLoop_text humanize msg chunks hg "" "" t0
      [SseEvent.typing true]
    refine ⟨rest, ?_⟩
    simp only [generate_stream]
    rw [sseTextConcat_append]
    simp only [sseTextConcat, String.empty_append, String.append_empty] at hrest ⊢
    exact hrest
  · decide

/-- C2 counterexample input: one final chunk of three characters arriving
within half a second. -/
def shortFinalChunk : List OllamaChunk :=
  [{ response := some "Hi.", done := true, time := 0 }]

/-- C2 counterexample.  A successful upstream stream whose whole response
is `"Hi."` (under 10 characters, within 0.5 s) produces only the typing
indicator and the final done frame: no `data` frame carrying text is ever
sent, even though the upstream call succeeded, so the generator does not
forward the chunk text to the client. -/
theorem stream_drops_short_tail :
    generate_stream id "what should i do" (Except.ok shortFinalChunk) 0 =
      ([SseEvent.typing true, SseEvent.done], some "Hi.") := by
  have hg : isSimpleGreeting "what should i do" = false := by decide
  have hlen : ¬ (10 ≤ ("" ++ "Hi." : String).length) := by decide
  have htime : ¬ ((1 : ℚ) / 2 ≤ (0 : ℚ) - 0) := by norm_num
  have hflush : ¬ (10 ≤ ("" ++ "Hi." : String).length ∨
      (1 : ℚ) / 2 ≤ (0 : ℚ) - 0) := by
    rintro (h | h)
    · exact hlen h
    · exact htime h
  have hloop : streamLoop id "what should i do" shortFinalChunk "" "" 0
      [SseEvent.typing true] = ("" ++ "Hi.", [SseEvent.typing true]) := by
    simp only [shortFinalChunk, streamLoop]
    rw [if_neg (by simp [hg]), if_neg hflush]
  simp only [generate_stream, hloop, hg]
  simp [id]

end FutureSelf
